import Mathlib

/-!
Verification of the proj2_nps.py script (national-site scraper with a
JSON-file cache and a places API lookup).

The development shallowly embeds the script:
- a JSON value model with a printer and a fuel-based reader, standing for
  the json.dumps / json.loads library calls used by save_cache / load_cache;
- the cache file as an Option String (None = the file does not exist);
- the in-memory fetch helpers make_url_request_using_cache and
  make_request_with_cache_api over an explicit world state that records the
  cache file contents, the network requests performed, and the number of
  save_cache calls;
- the NationalSite and NearbyPlace records, the per-entry flattening of an
  API response (make_nearby_instance_list), and the site-selection step of
  the interactive loop.
-/

namespace Proj2

/-- The JSON values that json.dumps / json.loads exchange: null, booleans,
integers, strings, arrays and objects (floats are out of scope). -/
inductive JVal where
  | null : JVal
  | bool (b : Bool) : JVal
  | num (n : Int) : JVal
  | str (s : String) : JVal
  | arr (elems : List JVal) : JVal
  | obj (members : List (String × JVal)) : JVal

/-- Decimal digit test on a character, by code point. -/
def isDigitCh (c : Char) : Bool := 48 ≤ c.toNat && c.toNat ≤ 57

/-- Numeric value of a decimal digit character. -/
def digitVal (c : Char) : Nat := c.toNat - 48

/-- The decimal digit character for d (meaningful for d < 10). -/
def digitChar (d : Nat) : Char := Char.ofNat (48 + d)

/-- Decimal digit characters of a natural number, most significant first. -/
def natChars (n : Nat) : List Char :=
  if n = 0 then ['0'] else ((Nat.digits 10 n).map digitChar).reverse

/-- Decimal characters of an integer: optional minus sign, then digits. -/
def intChars (i : Int) : List Char :=
  if i < 0 then '-' :: natChars i.natAbs else natChars i.toNat

/-- JSON escape of one character inside a string literal. -/
def jesc (c : Char) : List Char :=
  if c = '"' then ['\\', '"']
  else if c = '\\' then ['\\', '\\']
  else if c = '\n' then ['\\', 'n']
  else if c = '\t' then ['\\', 't']
  else if c = '\r' then ['\\', 'r']
  else [c]

/-- JSON escape of a character list. -/
def jescL (cs : List Char) : List Char := cs.foldr (fun c acc => jesc c ++ acc) []

/-- A quoted, escaped JSON string literal. -/
def jquote (s : String) : List Char := '"' :: (jescL s.data ++ ['"'])

mutual

/-- Print a JSON value to characters (the model of json.dumps, with
compact separators). -/
def jprint : JVal → List Char
  | .null => "null".data
  | .bool true => "true".data
  | .bool false => "false".data
  | .num i => intChars i
  | .str s => jquote s
  | .arr es => '[' :: (jprintList es ++ [']'])
  | .obj ms => '\x7b' :: (jprintPairs ms ++ ['\x7d'])

/-- Print comma-separated array elements. -/
def jprintList : List JVal → List Char
  | [] => []
  | [x] => jprint x
  | x :: y :: t => jprint x ++ ',' :: jprintList (y :: t)

/-- Print comma-separated object members. -/
def jprintPairs : List (String × JVal) → List Char
  | [] => []
  | [(k, v)] => jquote k ++ ':' :: jprint v
  | (k, v) :: q :: t => jquote k ++ ':' :: jprint v ++ ',' :: jprintPairs (q :: t)

end

/-- Read a run of decimal digits as a natural number. -/
def readNat (cs : List Char) : Option (Nat × List Char) :=
  let ds := cs.takeWhile isDigitCh
  if ds.isEmpty then none
  else some (ds.foldl (fun a c => 10 * a + digitVal c) 0, cs.dropWhile isDigitCh)

/-- True when the input does not continue with a decimal digit (so a digit
run just before it cannot extend). -/
def headNotDigit : List Char → Bool
  | [] => true
  | c :: _ => !isDigitCh c

/-- Undo a single-character JSON escape. -/
def junesc (c : Char) : Option Char :=
  if c = '"' then some '"'
  else if c = '\\' then some '\\'
  else if c = 'n' then some '\n'
  else if c = 't' then some '\t'
  else if c = 'r' then some '\r'
  else none

/-- Read a string body up to its closing quote, undoing escapes. -/
def readStr : List Char → Option (List Char × List Char)
  | [] => none
  | c :: rest =>
    if c = '"' then some ([], rest)
    else if c = '\\' then
      match rest with
      | [] => none
      | e :: rest2 =>
        match junesc e with
        | some u => (readStr rest2).map (fun p => (u :: p.1, p.2))
        | none => none
    else (readStr rest).map (fun p => (c :: p.1, p.2))

mutual

/-- Read one JSON value (fuel-bounded recursion; the model of json.loads). -/
def jparse : Nat → List Char → Option (JVal × List Char)
  | 0, _ => none
  | fuel + 1, cs =>
    match cs with
    | [] => none
    | c :: rest =>
      if c = 'n' then
        match rest with
        | 'u' :: 'l' :: 'l' :: r => some (.null, r)
        | _ => none
      else if c = 't' then
        match rest with
        | 'r' :: 'u' :: 'e' :: r => some (.bool true, r)
        | _ => none
      else if c = 'f' then
        match rest with
        | 'a' :: 'l' :: 's' :: 'e' :: r => some (.bool false, r)
        | _ => none
      else if c = '"' then (readStr rest).map (fun p => (.str (String.mk p.1), p.2))
      else if c = '[' then (jparseList fuel rest).map (fun p => (.arr p.1, p.2))
      else if c = '\x7b' then (jparsePairs fuel rest).map (fun p => (.obj p.1, p.2))
      else if c = '-' then
        match readNat rest with
        | some (m, r) => some (.num (-(m : Int)), r)
        | none => none
      else if isDigitCh c then
        match readNat (c :: rest) with
        | some (m, r) => some (.num (m : Int), r)
        | none => none
      else none

/-- Read array elements up to the closing bracket. -/
def jparseList : Nat → List Char → Option (List JVal × List Char)
  | 0, _ => none
  | fuel + 1, cs =>
    match cs with
    | [] => none
    | c :: rest =>
      if c = ']' then some ([], rest)
      else
        match jparse fuel (c :: rest) with
        | none => none
        | some (v, cs2) =>
          match cs2 with
          | [] => none
          | c2 :: cs3 =>
            if c2 = ',' then (jparseList fuel cs3).map (fun p => (v :: p.1, p.2))
            else if c2 = ']' then some ([v], cs3)
            else none

/-- Read object members up to the closing brace. -/
def jparsePairs : Nat → List Char → Option (List (String × JVal) × List Char)
  | 0, _ => none
  | fuel + 1, cs =>
    match cs with
    | [] => none
    | c :: rest =>
      if c = '\x7d' then some ([], rest)
      else if c = '"' then
        match readStr rest with
        | none => none
        | some (kcs, cs2) =>
          match cs2 with
          | [] => none
          | c2 :: cs3 =>
            if c2 = ':' then
              match jparse fuel cs3 with
              | none => none
              | some (v, cs4) =>
                match cs4 with
                | [] => none
                | c3 :: cs5 =>
                  if c3 = ',' then
                    (jparsePairs fuel cs5).map (fun p => ((String.mk kcs, v) :: p.1, p.2))
                  else if c3 = '\x7d' then some ([(String.mk kcs, v)], cs5)
                  else none
            else none
      else none

end

/-- Serialize a JSON value (json.dumps). -/
def json_dumps (v : JVal) : String := String.mk (jprint v)

/-- Deserialize a whole string as one JSON value (json.loads); None models a
raised JSONDecodeError. -/
def json_loads (s : String) : Option JVal :=
  match jparse (s.data.length + 1) s.data with
  | some (v, []) => some v
  | _ => none

/-- The in-memory cache dictionary: string keys to JSON values (page text is
stored as a JSON string, an API response as its parsed JSON object). -/
abbrev Cache := List (String × JVal)

/-- Dictionary lookup on an association list (Python: key in d, d[key]). -/
def alookup {α : Type} : List (String × α) → String → Option α
  | [], _ => none
  | (k, v) :: t, key => if k = key then some v else alookup t key

/-- Dictionary assignment d[key] = v: update in place or append. -/
def ainsert {α : Type} : List (String × α) → String → α → List (String × α)
  | [], key, v => [(key, v)]
  | (k, w) :: t, key, v =>
    if k = key then (k, v) :: t else (k, w) :: ainsert t key v

/-- The load_cache function: read the backing file and parse it as JSON; a
missing file (None) is caught as FileNotFoundError and yields an empty dict;
a parse failure propagates as an error. -/
def load_cache (file : Option String) : Except String JVal :=
  match file with
  | none => Except.ok (JVal.obj [])
  | some contents =>
    match json_loads contents with
    | some v => Except.ok v
    | none => Except.error "json.decoder.JSONDecodeError"

/-- The save_cache function: overwrite the backing file with the serialized
mapping (the result is the new file contents). -/
def save_cache (cache : Cache) : Option String := some (json_dumps (JVal.obj cache))

/-- The query parameters built by make_request_with_cache_api. -/
structure ApiParams where
  key : String
  origin : String
  radius : Nat
  maxMatches : Nat
  ambiguities : String
  outFormat : String
deriving DecidableEq

/-- The world the script interacts with: the cache-file mapping on disk, the
log of plain network GETs, the log of API GETs with their parameters, and a
count of save_cache invocations. -/
structure WebState where
  disk : Cache
  getLog : List String
  apiLog : List (String × ApiParams)
  saves : Nat

/-- One save_cache call made by a fetcher: the mapping is written to disk. -/
def save_cache_state (cache : Cache) (s : WebState) : WebState :=
  WebState.mk cache s.getLog s.apiLog (s.saves + 1)

/-- The make_url_request_using_cache function: on a hit return the stored
value; on a miss perform requests.get (logged, with net as the network),
store the text under the url key, save the cache, and return it. -/
def make_url_request_using_cache (url : String) (cache : Cache)
    (net : String → String) (s : WebState) : JVal × Cache × WebState :=
  match alookup cache url with
  | some v => (v, cache, s)
  | none =>
    let text := net url
    let s1 := WebState.mk s.disk (s.getLog ++ [url]) s.apiLog s.saves
    let cache2 := ainsert cache url (JVal.str text)
    (JVal.str text, cache2, save_cache_state cache2 s1)

/-- A national site record; the constructor used by the script strips newline
characters from the phone (NationalSite.make below). -/
structure NationalSite where
  category : String
  name : String
  address : String
  zipcode : String
  phone : String
  url : Option String
deriving DecidableEq

/-- Python str.strip with a single-character set: drop leading and trailing
characters satisfying p. -/
def pyStrip (p : Char → Bool) (s : String) : String :=
  String.mk (((s.data.dropWhile p).reverse.dropWhile p).reverse)

/-- Membership in the strip set of phone.strip with a newline argument. -/
def isNL (c : Char) : Bool := c = '\n'

/-- Python str.strip with no argument: drop surrounding whitespace. -/
def pyStripWS (s : String) : String := pyStrip (fun c => c.isWhitespace) s

/-- The NationalSite constructor: phone.strip of a newline is applied to the
stored phone field. -/
def NationalSite.make (category name address zipcode phone : String)
    (url : Option String) : NationalSite :=
  NationalSite.mk category name address zipcode (pyStrip isNL phone) url

/-- Does the string begin with a newline character? -/
def startsWithNewline (s : String) : Bool :=
  match s.data.head? with
  | some c => c = '\n'
  | none => false

/-- Does the string end with a newline character? -/
def endsWithNewline (s : String) : Bool :=
  match s.data.getLast? with
  | some c => c = '\n'
  | none => false

/-- Does the string begin with any whitespace character? -/
def startsWithWhitespace (s : String) : Bool :=
  match s.data.head? with
  | some c => c.isWhitespace
  | none => false

/-- The parameter dictionary built by make_request_with_cache_api. -/
def api_params (apiKey : String) (site : NationalSite) : ApiParams :=
  ApiParams.mk apiKey site.zipcode 10 10 "ignore" "json"

/-- The make_request_with_cache_api function: load the cache from disk, build
the query parameters, and use the site name as the cache key; on a miss
perform the API GET (logged with its parameters), store the response under
the site name, save the cache, and return it. -/
def make_request_with_cache_api (apiKey url : String) (site : NationalSite)
    (api : String → ApiParams → JVal) (s : WebState) : JVal × WebState :=
  let cache_file := s.disk
  let params := api_params apiKey site
  match alookup cache_file site.name with
  | some v => (v, s)
  | none =>
    let response := api url params
    let s1 := WebState.mk s.disk s.getLog (s.apiLog ++ [(url, params)]) s.saves
    let cache2 := ainsert cache_file site.name response
    (response, save_cache_state cache2 s1)

/-- A nearby place record flattened from one API search result. -/
structure NearbyPlace where
  name : String
  category : String
  street_address : String
  city_name : String
deriving DecidableEq

/-- One entry of the searchResults list of an API response: the top-level
name key and the nested fields dictionary, each possibly absent, with the
fields values modeled as strings. -/
structure PEntry where
  name : Option String
  fields : Option (List (String × String))
deriving DecidableEq

/-- Access member of fields sub-key: None when the fields dictionary or the
sub-key is absent (a raised KeyError). -/
def getField (m : PEntry) (key : String) : Option String :=
  match m.fields with
  | none => none
  | some fs => alookup fs key

/-- The category extraction of make_nearby_instance_list: try
group_sic_code_name stripped (blank becomes the sentinel); on failure the
bare except retries group_sic_code_name_ext stripped with no blank check,
and a failure there propagates (None). -/
def categoryOf (m : PEntry) : Option String :=
  match getField m "group_sic_code_name" with
  | some s => some (if pyStripWS s = "" then "no category" else pyStripWS s)
  | none =>
    match getField m "group_sic_code_name_ext" with
    | some s => some (pyStripWS s)
    | none => none

/-- The street-address extraction: fields address stripped, with the
sentinel on absence or blank. -/
def streetOf (m : PEntry) : String :=
  match getField m "address" with
  | some s => if pyStripWS s = "" then "no address" else pyStripWS s
  | none => "no address"

/-- The city extraction: fields city stripped, with the sentinel on absence
or blank. -/
def cityOf (m : PEntry) : String :=
  match getField m "city" with
  | some s => if pyStripWS s = "" then "no city" else pyStripWS s
  | none => "no city"

/-- Flatten one searchResults entry into a NearbyPlace; None models an
uncaught exception (missing name, or both category fields missing). -/
def flattenEntry (m : PEntry) : Option NearbyPlace :=
  match m.name, categoryOf m with
  | some n, some c => some (NearbyPlace.mk n c (streetOf m) (cityOf m))
  | _, _ => none

/-- The make_nearby_instance_list loop over searchResults: flatten each
entry in order; an uncaught exception aborts the whole call (None). -/
def make_nearby_instance_list : List PEntry → Option (List NearbyPlace)
  | [] => some []
  | m :: rest =>
    match flattenEntry m with
    | none => none
    | some p => (make_nearby_instance_list rest).map (fun l => p :: l)

/-- Python str.lower on ASCII letters. -/
def pyLower (s : String) : String := String.mk (s.data.map Char.toLower)

/-- Python str.isnumeric restricted to ASCII: nonempty and all digits. -/
def pyIsNumeric (s : String) : Bool := !s.data.isEmpty && s.data.all isDigitCh

/-- Python int of a digit string: its decimal value. -/
def pyInt (s : String) : Nat := s.data.foldl (fun a c => 10 * a + digitVal c) 0

/-- Python list indexing: nonnegative indexes from the front, negative
indexes from the back, anything else raises IndexError (None). -/
def pyListGet {α : Type} (l : List α) (i : Int) : Option α :=
  if 0 ≤ i then l.get? i.toNat
  else if 0 ≤ i + l.length then l.get? (i + l.length).toNat
  else none

/-- What one iteration of the SiteSelect prompt does with the input. -/
inductive SelectOutcome where
  | goBack : SelectOutcome
  | quitAll : SelectOutcome
  | selected (site : NationalSite) : SelectOutcome
  | rejected : SelectOutcome
  | crashed : SelectOutcome
deriving DecidableEq

/-- One iteration of the inner selection loop of the main block: lower-case
the input; back and exit leave the loop; a numeric input passing the
int-value bound check selects sites_list at int(option) - 1 (fetching that
site detail and its nearby places); otherwise an error is printed and the
loop re-prompts (rejected). -/
def select_step (sites_list : List NationalSite) (inp : String) : SelectOutcome :=
  let option := pyLower inp
  if option = "back" then .goBack
  else if option = "exit" then .quitAll
  else if pyIsNumeric option then
    if (pyInt option : Int) ≤ sites_list.length then
      match pyListGet sites_list ((pyInt option : Int) - 1) with
      | some site => .selected site
      | none => .crashed
    else .rejected
  else .rejected

/-! ## Helper lemmas -/

theorem alookup_ainsert_self {α : Type} (c : List (String × α)) (k : String) (v : α) :
    alookup (ainsert c k v) k = some v := by
  induction c with
  | nil => simp [alookup, ainsert]
  | cons a t ih =>
    by_cases h : a.1 = k <;> simp [ainsert, alookup, h, ih]

theorem alookup_ainsert_ne {α : Type} (c : List (String × α)) (key k : String) (v : α)
    (h : k ≠ key) : alookup (ainsert c key v) k = alookup c k := by
  induction c with
  | nil => simp [alookup, ainsert, Ne.symm h]
  | cons a t ih =>
    by_cases ha : a.1 = key
    · have hak : ¬ a.1 = k := fun hk => h (hk.symm.trans ha)
      simp [ainsert, alookup, ha, hak, Ne.symm h]
    · by_cases hak : a.1 = k
      · simp [ainsert, alookup, ha, hak, h]
      · simp [ainsert, alookup, ha, hak, ih]

theorem dropWhile_head?_false {α : Type} {p : α → Bool} :
    ∀ {l : List α} {c : α}, (l.dropWhile p).head? = some c → p c = false := by
  intro l
  induction l with
  | nil => intro c h; simp [List.dropWhile] at h
  | cons a t ih =>
    intro c h
    rw [List.dropWhile_cons] at h
    by_cases hp : p a
    · rw [if_pos hp] at h; exact ih h
    · rw [if_neg hp] at h
      simp only [List.head?_cons, Option.some.injEq] at h
      subst h
      exact Bool.eq_false_iff.mpr hp

theorem pyStrip_no_leading {p : Char → Bool} {s : String} {c : Char}
    (h : (pyStrip p s).data.head? = some c) : p c = false := by
  simp only [pyStrip] at h
  rw [List.head?_reverse] at h
  set Y := (s.data.dropWhile p).reverse with hY
  have hsplit := List.takeWhile_append_dropWhile (p := p) (l := Y)
  have hor : Y.getLast? = (Y.dropWhile p).getLast?.or ((Y.takeWhile p).getLast?) := by
    conv_lhs => rw [← hsplit]
    exact List.getLast?_append
  rw [h] at hor
  simp only [Option.or_some] at hor
  have hYlast : Y.getLast? = (s.data.dropWhile p).head? := List.getLast?_reverse _
  rw [hYlast] at hor
  exact dropWhile_head?_false hor

theorem pyStrip_no_trailing {p : Char → Bool} {s : String} {c : Char}
    (h : (pyStrip p s).data.getLast? = some c) : p c = false := by
  simp only [pyStrip] at h
  rw [List.getLast?_reverse] at h
  exact dropWhile_head?_false h

/-! ## JSON codec round-trip -/

theorem jescL_cons (c : Char) (t : List Char) : jescL (c :: t) = jesc c ++ jescL t := rfl

theorem readStr_jesc : ∀ (cs rest : List Char),
    readStr (jescL cs ++ '"' :: rest) = some (cs, rest) := by
  intro cs
  induction cs with
  | nil =>
    intro rest
    show readStr ('"' :: rest) = some ([], rest)
    unfold readStr
    simp
  | cons c t ih =>
    intro rest
    rw [jescL_cons, List.append_assoc]
    by_cases h1 : c = '"'
    · subst h1; simp +decide [jesc, readStr, junesc, ih]
    by_cases h2 : c = '\\'
    · subst h2; simp +decide [jesc, readStr, junesc, ih]
    by_cases h3 : c = '\n'
    · subst h3; simp +decide [jesc, readStr, junesc, ih]
    by_cases h4 : c = '\t'
    · subst h4; simp +decide [jesc, readStr, junesc, ih]
    by_cases h5 : c = '\r'
    · subst h5; simp +decide [jesc, readStr, junesc, ih]
    have hj : jesc c = [c] := by simp [jesc, h1, h2, h3, h4, h5]
    rw [hj, List.cons_append, List.nil_append]
    unfold readStr
    simp [h1, h2, ih]

theorem digitVal_digitChar {d : Nat} (h : d < 10) : digitVal (digitChar d) = d := by
  interval_cases d <;> decide

theorem isDigitCh_digitChar {d : Nat} (h : d < 10) : isDigitCh (digitChar d) = true := by
  interval_cases d <;> decide

theorem natChars_ne_nil (n : Nat) : natChars n ≠ [] := by
  unfold natChars
  by_cases h : n = 0
  · simp [h]
  · simp only [h, if_false, ite_false]
    simp [Nat.digits_ne_nil_iff_ne_zero, h]

theorem natChars_all_digits (n : Nat) : ∀ c ∈ natChars n, isDigitCh c = true := by
  intro c hc
  unfold natChars at hc
  by_cases h : n = 0
  · simp [h] at hc; subst hc; decide
  · simp only [h, if_false, ite_false, List.mem_reverse, List.mem_map] at hc
    obtain ⟨d, hd, rfl⟩ := hc
    exact isDigitCh_digitChar (Nat.digits_lt_base (by norm_num) hd)

theorem foldl_digits (n : Nat) :
    (natChars n).foldl (fun a c => 10 * a + digitVal c) 0 = n := by
  unfold natChars
  by_cases h : n = 0
  · subst h; decide
  · rw [if_neg h, List.foldl_reverse, List.foldr_map]
    have key : ∀ l : List Nat, (∀ d ∈ l, d < 10) →
        List.foldr (fun d a => 10 * a + digitVal (digitChar d)) 0 l = Nat.ofDigits 10 l := by
      intro l
      induction l with
      | nil => intro _; simp [Nat.ofDigits]
      | cons d t ih =>
        intro hl
        simp only [List.foldr_cons, Nat.ofDigits_cons]
        rw [ih (fun x hx => hl x (List.mem_cons_of_mem _ hx)),
            digitVal_digitChar (hl d (List.mem_cons_self _ _))]
        ring
    rw [key _ (fun d hd => Nat.digits_lt_base (by norm_num) hd), Nat.ofDigits_digits]

theorem takeWhile_digit_append (l1 l2 : List Char) (h1 : ∀ c ∈ l1, isDigitCh c = true)
    (h2 : headNotDigit l2 = true) :
    (l1 ++ l2).takeWhile isDigitCh = l1 ∧ (l1 ++ l2).dropWhile isDigitCh = l2 := by
  induction l1 with
  | nil =>
    simp only [List.nil_append]
    cases l2 with
    | nil => simp
    | cons a t =>
      simp only [headNotDigit, Bool.not_eq_true'] at h2
      simp [List.takeWhile_cons, List.dropWhile_cons, h2]
  | cons a t ih =>
    have ha := h1 a (List.mem_cons_self _ _)
    have iht := ih (fun c hc => h1 c (List.mem_cons_of_mem _ hc))
    simp [List.takeWhile_cons, List.dropWhile_cons, ha, iht.1, iht.2]

theorem readNat_natChars (n : Nat) (rest : List Char) (h : headNotDigit rest = true) :
    readNat (natChars n ++ rest) = some (n, rest) := by
  have hsplit := takeWhile_digit_append (natChars n) rest (natChars_all_digits n) h
  simp only [readNat, hsplit.1, hsplit.2]
  have hne : (natChars n).isEmpty = false := by
    cases hnc : natChars n with
    | nil => exact absurd hnc (natChars_ne_nil n)
    | cons a t => rfl
  simp [hne, foldl_digits n]

theorem digit_ne_delims {c : Char} (h : isDigitCh c = true) :
    c ≠ ']' ∧ c ≠ '\x7d' ∧ c ≠ ',' := by
  refine ⟨?_, ?_, ?_⟩ <;> (intro he; subst he; exact absurd h (by decide))

theorem digit_ne_starts {c : Char} (h : isDigitCh c = true) :
    c ≠ 'n' ∧ c ≠ 't' ∧ c ≠ 'f' ∧ c ≠ '"' ∧ c ≠ '[' ∧ c ≠ '\x7b' ∧ c ≠ '-' := by
  refine ⟨?_, ?_, ?_, ?_, ?_, ?_, ?_⟩ <;> (intro he; subst he; exact absurd h (by decide))

theorem jprint_head (v : JVal) :
    ∃ c t, jprint v = c :: t ∧ c ≠ ']' ∧ c ≠ '\x7d' ∧ c ≠ ',' := by
  cases v with
  | null => exact ⟨'n', _, rfl, by decide⟩
  | bool b =>
    cases b with
    | false => exact ⟨'f', _, rfl, by decide⟩
    | true => exact ⟨'t', _, rfl, by decide⟩
  | num i =>
    show ∃ c t, intChars i = c :: t ∧ _
    unfold intChars
    by_cases h : i < 0
    · rw [if_pos h]
      exact ⟨'-', _, rfl, by decide⟩
    · rw [if_neg h]
      cases hnc : natChars i.toNat with
      | nil => exact absurd hnc (natChars_ne_nil _)
      | cons c t =>
        have hc : isDigitCh c = true :=
          natChars_all_digits _ c (by rw [hnc]; exact List.mem_cons_self _ _)
        exact ⟨c, t, rfl, digit_ne_delims hc⟩
  | str s => exact ⟨'"', _, rfl, by decide⟩
  | arr es => exact ⟨'[', _, rfl, by decide⟩
  | obj ms => exact ⟨'\x7b', _, rfl, by decide⟩

mutual

theorem jparse_jprint : ∀ (v : JVal) (fuel : Nat) (rest : List Char),
    (jprint v).length < fuel → headNotDigit rest = true →
    jparse fuel (jprint v ++ rest) = some (v, rest)
  | .null, fuel, rest, hf, _ => by
    cases fuel with
    | zero => exact absurd hf (Nat.not_lt_zero _)
    | succ f => rfl
  | .bool b, fuel, rest, hf, _ => by
    cases fuel with
    | zero => exact absurd hf (Nat.not_lt_zero _)
    | succ f => cases b <;> rfl
  | .str s, fuel, rest, hf, _ => by
    cases fuel with
    | zero => exact absurd hf (Nat.not_lt_zero _)
    | succ f =>
      have harg : jprint (.str s) ++ rest
          = '"' :: (jescL s.data ++ '"' :: rest) := by
        simp [jprint, jquote]
      rw [harg]
      show (readStr (jescL s.data ++ '"' :: rest)).map _ = _
      rw [readStr_jesc]
      rfl
  | .num i, fuel, rest, hf, hr => by
    cases fuel with
    | zero => exact absurd hf (Nat.not_lt_zero _)
    | succ f =>
      by_cases h : i < 0
      · have harg : jprint (.num i) ++ rest = '-' :: (natChars i.natAbs ++ rest) := by
          simp [jprint, intChars, h]
        rw [harg]
        show (match readNat (natChars i.natAbs ++ rest) with
              | some (m, r) => some (JVal.num (-(m : Int)), r)
              | none => none) = _
        rw [readNat_natChars _ _ hr]
        have hi : -(i.natAbs : Int) = i := by omega
        show some (JVal.num (-(i.natAbs : Int)), rest) = some (JVal.num i, rest)
        rw [hi]
      · cases hnc : natChars i.toNat with
        | nil => exact absurd hnc (natChars_ne_nil _)
        | cons c t =>
          have hc : isDigitCh c = true :=
            natChars_all_digits _ c (by rw [hnc]; exact List.mem_cons_self _ _)
          obtain ⟨s1, s2, s3, s4, s5, s6, s7⟩ := digit_ne_starts hc
          have harg : jprint (.num i) ++ rest = c :: (t ++ rest) := by
            simp [jprint, intChars, h, hnc]
          rw [harg]
          have hread : readNat (c :: (t ++ rest)) = some (i.toNat, rest) := by
            have : c :: (t ++ rest) = natChars i.toNat ++ rest := by simp [hnc]
            rw [this]
            exact readNat_natChars _ _ hr
          have hi : ((i.toNat : Nat) : Int) = i := by omega
          simp only [jparse, s1, s2, s3, s4, s5, s6, s7, if_false, ite_false, hc,
                     if_true, ite_true, hread, hi]
  | .arr es, fuel, rest, hf, _ => by
    cases fuel with
    | zero => exact absurd hf (Nat.not_lt_zero _)
    | succ f =>
      have harg : jprint (.arr es) ++ rest = '[' :: (jprintList es ++ ']' :: rest) := by
        simp [jprint]
      rw [harg]
      have hfl : (jprintList es).length + 1 < f := by
        have hpr : jprint (.arr es) = '[' :: (jprintList es ++ [']']) := by simp [jprint]
        rw [hpr] at hf
        simp only [List.length_cons, List.length_append] at hf
        omega
      show (jparseList f (jprintList es ++ ']' :: rest)).map _ = _
      rw [jparseList_jprint es f rest hfl]
      rfl
  | .obj ms, fuel, rest, hf, _ => by
    cases fuel with
    | zero => exact absurd hf (Nat.not_lt_zero _)
    | succ f =>
      have harg : jprint (.obj ms) ++ rest = '\x7b' :: (jprintPairs ms ++ '\x7d' :: rest) := by
        simp [jprint]
      rw [harg]
      have hfl : (jprintPairs ms).length + 1 < f := by
        have hpr : jprint (.obj ms) = '\x7b' :: (jprintPairs ms ++ ['\x7d']) := by simp [jprint]
        rw [hpr] at hf
        simp only [List.length_cons, List.length_append] at hf
        omega
      show (jparsePairs f (jprintPairs ms ++ '\x7d' :: rest)).map _ = _
      rw [jparsePairs_jprint ms f rest hfl]
      rfl

theorem jparseList_jprint : ∀ (xs : List JVal) (fuel : Nat) (rest : List Char),
    (jprintList xs).length + 1 < fuel →
    jparseList fuel (jprintList xs ++ ']' :: rest) = some (xs, rest)
  | [], fuel, rest, hf => by
    cases fuel with
    | zero => exact absurd hf (Nat.not_lt_zero _)
    | succ f => rfl
  | [x], fuel, rest, hf => by
    cases fuel with
    | zero => exact absurd hf (Nat.not_lt_zero _)
    | succ f =>
      obtain ⟨c, t, hct, hc1, _, _⟩ := jprint_head x
      have hfx : (jprint x).length < f := by
        have hpr : jprintList [x] = jprint x := by simp [jprintList]
        rw [hpr] at hf
        omega
      have hx : jparse f (c :: (t ++ ']' :: rest)) = some (x, ']' :: rest) := by
        have harg : c :: (t ++ ']' :: rest) = jprint x ++ ']' :: rest := by simp [hct]
        rw [harg]
        exact jparse_jprint x f (']' :: rest) hfx rfl
      have harg2 : jprintList [x] ++ ']' :: rest = c :: (t ++ ']' :: rest) := by
        simp [jprintList, hct]
      rw [harg2]
      simp only [jparseList, hc1, if_false, ite_false, hx]
      rfl
  | x :: y :: tl, fuel, rest, hf => by
    cases fuel with
    | zero => exact absurd hf (Nat.not_lt_zero _)
    | succ f =>
      obtain ⟨c, t, hct, hc1, _, _⟩ := jprint_head x
      have hlen : (jprint x).length + 1 + (jprintList (y :: tl)).length
          = (jprintList (x :: y :: tl)).length := by
        have hpr : jprintList (x :: y :: tl) = jprint x ++ ',' :: jprintList (y :: tl) := by
          simp [jprintList]
        rw [hpr]
        simp [List.length_append]
        omega
      have hfx : (jprint x).length < f := by omega
      have hftail : (jprintList (y :: tl)).length + 1 < f := by omega
      have hx : jparse f (c :: (t ++ (',' :: (jprintList (y :: tl) ++ ']' :: rest))))
          = some (x, ',' :: (jprintList (y :: tl) ++ ']' :: rest)) := by
        have harg : c :: (t ++ (',' :: (jprintList (y :: tl) ++ ']' :: rest)))
            = jprint x ++ ',' :: (jprintList (y :: tl) ++ ']' :: rest) := by simp [hct]
        rw [harg]
        exact jparse_jprint x f _ hfx rfl
      have htail := jparseList_jprint (y :: tl) f rest hftail
      have harg2 : jprintList (x :: y :: tl) ++ ']' :: rest
          = c :: (t ++ (',' :: (jprintList (y :: tl) ++ ']' :: rest))) := by
        simp [jprintList, hct]
      rw [harg2]
      simp only [jparseList, hc1, if_false, ite_false, hx, htail]
      rfl

theorem jparsePairs_jprint : ∀ (ms : List (String × JVal)) (fuel : Nat) (rest : List Char),
    (jprintPairs ms).length + 1 < fuel →
    jparsePairs fuel (jprintPairs ms ++ '\x7d' :: rest) = some (ms, rest)
  | [], fuel, rest, hf => by
    cases fuel with
    | zero => exact absurd hf (Nat.not_lt_zero _)
    | succ f => rfl
  | [(k, v)], fuel, rest, hf => by
    cases fuel with
    | zero => exact absurd hf (Nat.not_lt_zero _)
    | succ f =>
      have hfv : (jprint v).length < f := by
        have hpr : jprintPairs [(k, v)] = jquote k ++ ':' :: jprint v := by simp [jprintPairs]
        rw [hpr] at hf
        simp only [List.length_append, List.length_cons] at hf
        omega
      have hv : jparse f (jprint v ++ '\x7d' :: rest) = some (v, '\x7d' :: rest) :=
        jparse_jprint v f _ hfv rfl
      have harg : jprintPairs [(k, v)] ++ '\x7d' :: rest
          = '"' :: (jescL k.data ++ '"' :: (':' :: (jprint v ++ '\x7d' :: rest))) := by
        simp [jprintPairs, jquote]
      rw [harg]
      show (match readStr (jescL k.data ++ '"' :: (':' :: (jprint v ++ '\x7d' :: rest))) with
            | none => none
            | some (kcs, cs2) => _) = _
      rw [readStr_jesc]
      show (match jparse f (jprint v ++ '\x7d' :: rest) with
            | none => none
            | some (w, cs4) => _) = _
      rw [hv]
      rfl
  | (k, v) :: q :: tl, fuel, rest, hf => by
    cases fuel with
    | zero => exact absurd hf (Nat.not_lt_zero _)
    | succ f =>
      have hlen : (jprintPairs ((k, v) :: q :: tl)).length
          = (jquote k).length + 1 + (jprint v).length + 1 + (jprintPairs (q :: tl)).length := by
        have hpr : jprintPairs ((k, v) :: q :: tl)
            = jquote k ++ ':' :: jprint v ++ ',' :: jprintPairs (q :: tl) := by
          simp [jprintPairs]
        rw [hpr]
        simp [List.length_append]
        omega
      have hfv : (jprint v).length < f := by omega
      have hftail : (jprintPairs (q :: tl)).length + 1 < f := by omega
      have hv : jparse f (jprint v ++ ',' :: (jprintPairs (q :: tl) ++ '\x7d' :: rest))
          = some (v, ',' :: (jprintPairs (q :: tl) ++ '\x7d' :: rest)) :=
        jparse_jprint v f _ hfv rfl
      have htail := jparsePairs_jprint (q :: tl) f rest hftail
      have harg : jprintPairs ((k, v) :: q :: tl) ++ '\x7d' :: rest
          = '"' :: (jescL k.data ++ '"' :: (':' ::
              (jprint v ++ ',' :: (jprintPairs (q :: tl) ++ '\x7d' :: rest)))) := by
        simp [jprintPairs, jquote]
      rw [harg]
      show (match readStr (jescL k.data ++ '"' :: (':' ::
              (jprint v ++ ',' :: (jprintPairs (q :: tl) ++ '\x7d' :: rest)))) with
            | none => none
            | some (kcs, cs2) => _) = _
      rw [readStr_jesc]
      show (match jparse f (jprint v ++ ',' :: (jprintPairs (q :: tl) ++ '\x7d' :: rest)) with
            | none => none
            | some (w, cs4) => _) = _
      rw [hv]
      show (jparsePairs f (jprintPairs (q :: tl) ++ '\x7d' :: rest)).map _ = _
      rw [htail]
      rfl

end

theorem json_roundtrip (v : JVal) : json_loads (json_dumps v) = some v := by
  have h := jparse_jprint v ((jprint v).length + 1) [] (by omega) rfl
  rw [List.append_nil] at h
  show (match jparse ((jprint v).length + 1) (jprint v) with
        | some (w, []) => some w
        | _ => none) = some v
  rw [h]

/-! ## Claim theorems -/

/-- Claim C1 (code bug): with the three-site list below, the selection inputs
1..3 select the corresponding sites and 4 and a non-numeric input are
rejected, but the input 0 is not rejected: it passes the bound check, indexes
the list at -1, and selects the LAST site (its detail and places fetch run),
while the spec requires 0 to be rejected as out of range. -/
theorem C1_selection_input_zero_selects_last_site :
    select_step [NationalSite.make "p" "A" "a, A" "11111" "1" (some "u1"),
                 NationalSite.make "p" "B" "b, B" "22222" "2" (some "u2"),
                 NationalSite.make "p" "C" "c, C" "33333" "3" (some "u3")] "0"
      = SelectOutcome.selected (NationalSite.make "p" "C" "c, C" "33333" "3" (some "u3")) ∧
    select_step [NationalSite.make "p" "A" "a, A" "11111" "1" (some "u1"),
                 NationalSite.make "p" "B" "b, B" "22222" "2" (some "u2"),
                 NationalSite.make "p" "C" "c, C" "33333" "3" (some "u3")] "1"
      = SelectOutcome.selected (NationalSite.make "p" "A" "a, A" "11111" "1" (some "u1")) ∧
    select_step [NationalSite.make "p" "A" "a, A" "11111" "1" (some "u1"),
                 NationalSite.make "p" "B" "b, B" "22222" "2" (some "u2"),
                 NationalSite.make "p" "C" "c, C" "33333" "3" (some "u3")] "2"
      = SelectOutcome.selected (NationalSite.make "p" "B" "b, B" "22222" "2" (some "u2")) ∧
    select_step [NationalSite.make "p" "A" "a, A" "11111" "1" (some "u1"),
                 NationalSite.make "p" "B" "b, B" "22222" "2" (some "u2"),
                 NationalSite.make "p" "C" "c, C" "33333" "3" (some "u3")] "3"
      = SelectOutcome.selected (NationalSite.make "p" "C" "c, C" "33333" "3" (some "u3")) ∧
    select_step [NationalSite.make "p" "A" "a, A" "11111" "1" (some "u1"),
                 NationalSite.make "p" "B" "b, B" "22222" "2" (some "u2"),
                 NationalSite.make "p" "C" "c, C" "33333" "3" (some "u3")] "4"
      = SelectOutcome.rejected ∧
    select_step [NationalSite.make "p" "A" "a, A" "11111" "1" (some "u1"),
                 NationalSite.make "p" "B" "b, B" "22222" "2" (some "u2"),
                 NationalSite.make "p" "C" "c, C" "33333" "3" (some "u3")] "abc"
      = SelectOutcome.rejected := by
  decide

/-- Claim C7 counterexample: the constructor strips only newlines, so a phone
passed with a leading space is stored still beginning with a whitespace
character, refuting that the stored phone never begins with whitespace. -/
theorem C7_counterexample :
    startsWithWhitespace
      ((NationalSite.make "c" "n" "a" "z" " 231-436-4100" none).phone) = true := by
  decide

/-- Claim C7 amended: the constructor strips surrounding NEWLINE characters
(and only those) from the phone, so the stored phone never begins or ends
with a newline character. -/
theorem C7_phone_strip_amended (category nm address zipcode phone : String)
    (url : Option String) :
    (NationalSite.make category nm address zipcode phone url).phone = pyStrip isNL phone ∧
    startsWithNewline ((NationalSite.make category nm address zipcode phone url).phone) = false ∧
    endsWithNewline ((NationalSite.make category nm address zipcode phone url).phone) = false := by
  refine ⟨rfl, ?_, ?_⟩
  · show startsWithNewline (pyStrip isNL phone) = false
    unfold startsWithNewline
    cases h : (pyStrip isNL phone).data.head? with
    | none => rfl
    | some c =>
      have := pyStrip_no_leading h
      simp only [isNL, decide_eq_false_iff_not] at this
      simp [this]
  · show endsWithNewline (pyStrip isNL phone) = false
    unfold endsWithNewline
    cases h : (pyStrip isNL phone).data.getLast? with
    | none => rfl
    | some c =>
      have := pyStrip_no_trailing h
      simp only [isNL, decide_eq_false_iff_not] at this
      simp [this]

/-- Claim C2 counterexample: an entry whose fields dictionary has neither
category key makes the flattening raise (None), refuting that a single
entry never raises; and an entry whose only category field is the blank
alternate name gets category an empty string, not the sentinel. -/
theorem C2_counterexample :
    flattenEntry (PEntry.mk (some "P") (some [])) = none ∧
    categoryOf (PEntry.mk (some "Q") (some [("group_sic_code_name_ext", " ")]))
      = some "" := by
  exact ⟨rfl, rfl⟩

/-- Claim C2 amended: the category comes from group_sic_code_name stripped,
with the sentinel substituted only when that field is present but blank; if
that extraction fails, the category is group_sic_code_name_ext stripped with
no blank substitution, and if that also fails the exception propagates, so
an entry flattens exactly when its name is present and the category
extraction succeeds (street address and city never make it fail). -/
theorem C2_category_fallback_amended (m : PEntry) :
    (∀ s, getField m "group_sic_code_name" = some s →
        categoryOf m = some (if pyStripWS s = "" then "no category" else pyStripWS s)) ∧
    (getField m "group_sic_code_name" = none →
        categoryOf m = (getField m "group_sic_code_name_ext").map pyStripWS) ∧
    ((flattenEntry m).isSome ↔ m.name.isSome ∧ (categoryOf m).isSome) := by
  refine ⟨?_, ?_, ?_⟩
  · intro s hs
    simp [categoryOf, hs]
  · intro h
    simp only [categoryOf, h]
    cases getField m "group_sic_code_name_ext" <;> simp
  · cases hn : m.name <;> cases hc : categoryOf m <;> simp [flattenEntry, hn, hc]

/-- Claim C2 witness: the amended fallback evaluated at concrete entries. -/
theorem C2_category_fallback_witness :
    categoryOf (PEntry.mk (some "A") (some [("group_sic_code_name", " Park ")]))
      = some "Park" ∧
    categoryOf (PEntry.mk (some "B") (some [("group_sic_code_name_ext", " Ext ")]))
      = some "Ext" ∧
    (flattenEntry (PEntry.mk (some "A") (some [("group_sic_code_name", " Park ")]))).isSome
      = true := by
  refine ⟨?_, ?_, ?_⟩
  · have h := (C2_category_fallback_amended
      (PEntry.mk (some "A") (some [("group_sic_code_name", " Park ")]))).1 " Park " rfl
    simpa using h
  · have h := (C2_category_fallback_amended
      (PEntry.mk (some "B") (some [("group_sic_code_name_ext", " Ext ")]))).2.1 rfl
    simpa using h
  · exact (C2_category_fallback_amended
      (PEntry.mk (some "A") (some [("group_sic_code_name", " Park ")]))).2.2.mpr
      ⟨rfl, rfl⟩

/-- Claim C6 counterexample: this first entry lacks fields.address, yet no
record with street address sentinel is produced and the remaining entry is
not processed: the whole flattening aborts (the category extraction of the
first entry raises). -/
theorem C6_counterexample :
    make_nearby_instance_list
      [PEntry.mk (some "A") (some []),
       PEntry.mk (some "B") (some [("group_sic_code_name", "Park")])] = none := by
  rfl

/-- Claim C6 amended: an entry whose name and category extract successfully
and which lacks fields.address (or has a blank one) flattens to a record
with the street-address sentinel, and the surrounding entries are processed
normally around it (one record is produced for it, in order). -/
theorem C6_missing_address_amended (pre post : List PEntry) (m : PEntry) (n c : String)
    (hn : m.name = some n) (hc : categoryOf m = some c)
    (ha : getField m "address" = none ∨
          (∃ s, getField m "address" = some s ∧ pyStripWS s = "")) :
    flattenEntry m = some (NearbyPlace.mk n c "no address" (cityOf m)) ∧
    (∀ ps qs, make_nearby_instance_list pre = some ps →
       make_nearby_instance_list post = some qs →
       make_nearby_instance_list (pre ++ m :: post)
         = some (ps ++ NearbyPlace.mk n c "no address" (cityOf m) :: qs)) := by
  have hstreet : streetOf m = "no address" := by
    rcases ha with h | ⟨s, hs, hblank⟩
    · simp [streetOf, h]
    · simp [streetOf, hs, hblank]
  have hflat : flattenEntry m = some (NearbyPlace.mk n c "no address" (cityOf m)) := by
    simp [flattenEntry, hn, hc, hstreet]
  refine ⟨hflat, ?_⟩
  intro ps qs hpre hpost
  induction pre generalizing ps with
  | nil =>
    simp only [make_nearby_instance_list, Option.some.injEq] at hpre
    subst hpre
    simp [make_nearby_instance_list, hflat, hpost]
  | cons a t ih =>
    simp only [make_nearby_instance_list] at hpre
    cases hfa : flattenEntry a with
    | none => rw [hfa] at hpre; cases hpre
    | some p =>
      rw [hfa] at hpre
      cases hrest : make_nearby_instance_list t with
      | none => rw [hrest] at hpre; cases hpre
      | some tl =>
        rw [hrest] at hpre
        simp only [Option.map_some', Option.some.injEq] at hpre
        subst hpre
        have hstep := ih tl hrest
        simp [make_nearby_instance_list, hfa, hstep]

/-- Claim C6 witness: the amended statement at a concrete one-entry list. -/
theorem C6_missing_address_witness :
    make_nearby_instance_list
      [PEntry.mk (some "A") (some [("group_sic_code_name", "Park")])]
      = some [NearbyPlace.mk "A" "Park" "no address" "no city"] := by
  have h := (C6_missing_address_amended [] []
      (PEntry.mk (some "A") (some [("group_sic_code_name", "Park")]))
      "A" "Park" rfl rfl (Or.inl rfl)).2 [] [] rfl rfl
  simpa using h

/-- Claim C3: a fetch through make_url_request_using_cache returns a stored
value untouched on a hit (no network request, no state change); on a miss it
performs exactly one network request, stores the text under the url, writes
the cache to disk, returns it, and a second fetch of the same key then hits
and does not touch the network. -/
theorem C3_fetch_uses_cache (url : String) (cache : Cache) (net : String → String)
    (s : WebState) :
    (∀ v, alookup cache url = some v →
        make_url_request_using_cache url cache net s = (v, cache, s)) ∧
    (alookup cache url = none →
        make_url_request_using_cache url cache net s
          = (JVal.str (net url), ainsert cache url (JVal.str (net url)),
             WebState.mk (ainsert cache url (JVal.str (net url)))
               (s.getLog ++ [url]) s.apiLog (s.saves + 1)) ∧
        alookup (ainsert cache url (JVal.str (net url))) url = some (JVal.str (net url)) ∧
        (∀ s2 : WebState,
           make_url_request_using_cache url (ainsert cache url (JVal.str (net url))) net s2
             = (JVal.str (net url), ainsert cache url (JVal.str (net url)), s2))) := by
  constructor
  · intro v hv
    simp [make_url_request_using_cache, hv]
  · intro h
    have hlk := alookup_ainsert_self cache url (JVal.str (net url))
    refine ⟨?_, hlk, ?_⟩
    · simp [make_url_request_using_cache, h, save_cache_state]
    · intro s2
      simp [make_url_request_using_cache, hlk]

/-- Claim C3 witness: the hit and miss branches at concrete inputs. -/
theorem C3_fetch_uses_cache_witness :
    make_url_request_using_cache "u" [("u", JVal.str "V")] (fun _ => "W")
        (WebState.mk [] [] [] 0)
      = (JVal.str "V", [("u", JVal.str "V")], WebState.mk [] [] [] 0) ∧
    make_url_request_using_cache "u" [] (fun _ => "W") (WebState.mk [] [] [] 0)
      = (JVal.str "W", [("u", JVal.str "W")],
         WebState.mk [("u", JVal.str "W")] ["u"] [] 1) := by
  constructor
  · exact (C3_fetch_uses_cache "u" [("u", JVal.str "V")] (fun _ => "W")
      (WebState.mk [] [] [] 0)).1 (JVal.str "V") rfl
  · have h := ((C3_fetch_uses_cache "u" [] (fun _ => "W")
      (WebState.mk [] [] [] 0)).2 rfl).1
    simpa using h

/-- Claim C8: make_request_with_cache_api builds exactly the query
parameters key, origin = the site zipcode, radius 10, maxMatches 10,
ambiguities ignore, outFormat json, and keys the cache by the site name: a
hit on the site name returns the stored response, a miss logs one API
request with exactly those parameters and stores the response under the
site name. -/
theorem C8_api_params_and_key (apiKey url : String) (site : NationalSite)
    (api : String → ApiParams → JVal) (s : WebState) :
    api_params apiKey site = ApiParams.mk apiKey site.zipcode 10 10 "ignore" "json" ∧
    (∀ v, alookup s.disk site.name = some v →
        make_request_with_cache_api apiKey url site api s = (v, s)) ∧
    (alookup s.disk site.name = none →
        (make_request_with_cache_api apiKey url site api s).2.apiLog
          = s.apiLog ++ [(url, ApiParams.mk apiKey site.zipcode 10 10 "ignore" "json")] ∧
        alookup (make_request_with_cache_api apiKey url site api s).2.disk site.name
          = some (api url (ApiParams.mk apiKey site.zipcode 10 10 "ignore" "json")) ∧
        (make_request_with_cache_api apiKey url site api s).1
          = api url (ApiParams.mk apiKey site.zipcode 10 10 "ignore" "json")) := by
  refine ⟨rfl, ?_, ?_⟩
  · intro v hv
    simp [make_request_with_cache_api, hv]
  · intro h
    simp [make_request_with_cache_api, h, save_cache_state, api_params,
          alookup_ainsert_self]

/-- Claim C8 witness: the parameter build and both branches at a concrete
site with zipcode 49931. -/
theorem C8_api_params_and_key_witness :
    (make_request_with_cache_api "KEY" "apiurl"
        (NationalSite.make "p" "Isle Royale" "Houghton, MI" "49931" "x" none)
        (fun u q => JVal.str (u ++ q.origin)) (WebState.mk [] [] [] 0)).2.apiLog
      = [("apiurl", ApiParams.mk "KEY" "49931" 10 10 "ignore" "json")] ∧
    make_request_with_cache_api "KEY" "apiurl"
        (NationalSite.make "p" "Isle Royale" "Houghton, MI" "49931" "x" none)
        (fun u q => JVal.str (u ++ q.origin))
        (WebState.mk [("Isle Royale", JVal.str "cached")] [] [] 0)
      = (JVal.str "cached", WebState.mk [("Isle Royale", JVal.str "cached")] [] [] 0) := by
  constructor
  · have h := ((C8_api_params_and_key "KEY" "apiurl"
      (NationalSite.make "p" "Isle Royale" "Houghton, MI" "49931" "x" none)
      (fun u q => JVal.str (u ++ q.origin)) (WebState.mk [] [] [] 0)).2.2 rfl).1
    simpa using h
  · exact (C8_api_params_and_key "KEY" "apiurl"
      (NationalSite.make "p" "Isle Royale" "Houghton, MI" "49931" "x" none)
      (fun u q => JVal.str (u ++ q.origin))
      (WebState.mk [("Isle Royale", JVal.str "cached")] [] [] 0)).2.1
      (JVal.str "cached") rfl

/-- Claim C9: both cache-using fetches only add keys: any key present in the
mapping before the call is still present with the same value afterwards
(the in-memory mapping for the url fetch, the on-disk mapping for the API
fetch). -/
theorem C9_cache_monotone (url apiKey : String) (cache : Cache) (net : String → String)
    (site : NationalSite) (api : String → ApiParams → JVal) (s : WebState)
    (k : String) (v : JVal) :
    (alookup cache k = some v →
        alookup (make_url_request_using_cache url cache net s).2.1 k = some v) ∧
    (alookup s.disk k = some v →
        alookup (make_request_with_cache_api apiKey url site api s).2.disk k = some v) := by
  constructor
  · intro hk
    cases h : alookup cache url with
    | some w => simp [make_url_request_using_cache, h, hk]
    | none =>
      have hne : k ≠ url := fun he => by rw [he, h] at hk; cases hk
      simp [make_url_request_using_cache, h, save_cache_state,
            alookup_ainsert_ne _ _ _ _ hne, hk]
  · intro hk
    cases h : alookup s.disk site.name with
    | some w => simp [make_request_with_cache_api, h, hk]
    | none =>
      have hne : k ≠ site.name := fun he => by rw [he, h] at hk; cases hk
      simp [make_request_with_cache_api, h, save_cache_state,
            alookup_ainsert_ne _ _ _ _ hne, hk]

/-- Claim C9 witness: a pre-existing key survives a miss on another key in
both fetchers. -/
theorem C9_cache_monotone_witness :
    alookup (make_url_request_using_cache "b" [("a", JVal.str "1")] (fun _ => "W")
        (WebState.mk [] [] [] 0)).2.1 "a" = some (JVal.str "1") ∧
    alookup (make_request_with_cache_api "KEY" "apiurl"
        (NationalSite.make "p" "S" "c, R" "11111" "x" none)
        (fun _ _ => JVal.null)
        (WebState.mk [("a", JVal.str "1")] [] [] 0)).2.disk "a" = some (JVal.str "1") := by
  constructor
  · exact (C9_cache_monotone "b" "KEY" [("a", JVal.str "1")] (fun _ => "W")
      (NationalSite.make "p" "S" "c, R" "11111" "x" none) (fun _ _ => JVal.null)
      (WebState.mk [] [] [] 0) "a" (JVal.str "1")).1 rfl
  · exact (C9_cache_monotone "apiurl" "KEY" [] (fun _ => "W")
      (NationalSite.make "p" "S" "c, R" "11111" "x" none) (fun _ _ => JVal.null)
      (WebState.mk [("a", JVal.str "1")] [] [] 0) "a" (JVal.str "1")).2 rfl

/-- Claim C10: on a hit make_url_request_using_cache returns with the whole
world state unchanged (in particular save_cache is not invoked and the disk
mapping is untouched); save_cache runs exactly once on the miss branch,
writing the extended mapping. -/
theorem C10_save_only_on_miss (url : String) (cache : Cache) (net : String → String)
    (s : WebState) :
    (∀ v, alookup cache url = some v →
        (make_url_request_using_cache url cache net s).2.2 = s) ∧
    (alookup cache url = none →
        (make_url_request_using_cache url cache net s).2.2.saves = s.saves + 1 ∧
        (make_url_request_using_cache url cache net s).2.2.disk
          = ainsert cache url (JVal.str (net url))) := by
  constructor
  · intro v hv
    simp [make_url_request_using_cache, hv]
  · intro h
    simp [make_url_request_using_cache, h, save_cache_state]

/-- Claim C4 counterexample: a backing file that exists and holds an empty
JSON object also makes load_cache return the empty mapping, refuting the
claimed equivalence that an empty mapping comes back exactly when the file
does not exist. -/
theorem C4_counterexample :
    load_cache (some "\x7b\x7d") = Except.ok (JVal.obj []) ∧
    (some "\x7b\x7d" : Option String).isSome = true := by
  exact ⟨rfl, rfl⟩

/-- Claim C4 amended: load_cache returns the empty mapping when the backing
file does not exist (the only recovered failure); file contents that fail to
parse propagate an error, and contents that parse are returned as parsed (in
particular a file holding an empty object also yields an empty mapping). -/
theorem C4_load_cache_amended (file : Option String) :
    (file = none → load_cache file = Except.ok (JVal.obj [])) ∧
    (∀ s, file = some s → json_loads s = none →
        load_cache file = Except.error "json.decoder.JSONDecodeError") ∧
    (∀ s v, file = some s → json_loads s = some v → load_cache file = Except.ok v) := by
  refine ⟨?_, ?_, ?_⟩
  · intro h; subst h; rfl
  · intro s hs h
    subst hs
    simp [load_cache, h]
  · intro s v hs h
    subst hs
    simp [load_cache, h]

/-- Claim C4 witness: the three load_cache outcomes at concrete files. -/
theorem C4_load_cache_witness :
    load_cache none = Except.ok (JVal.obj []) ∧
    load_cache (some "nope") = Except.error "json.decoder.JSONDecodeError" ∧
    load_cache (some "\x7b\"k\":null\x7d") = Except.ok (JVal.obj [("k", JVal.null)]) := by
  refine ⟨(C4_load_cache_amended none).1 rfl, ?_, ?_⟩
  · exact (C4_load_cache_amended (some "nope")).2.1 "nope" rfl rfl
  · exact (C4_load_cache_amended (some "\x7b\"k\":null\x7d")).2.2 "\x7b\"k\":null\x7d"
      (JVal.obj [("k", JVal.null)]) rfl rfl

/-- Claim C5: saving any cache mapping with save_cache and loading the file
back with load_cache reproduces exactly the same mapping: the serialized
object parses back to the identical key-value list. -/
theorem C5_cache_roundtrip (cache : Cache) :
    load_cache (save_cache cache) = Except.ok (JVal.obj cache) := by
  simp [load_cache, save_cache, json_roundtrip]

/-- Claim C10 witness: hit leaves the state alone, miss saves once. -/
theorem C10_save_only_on_miss_witness :
    (make_url_request_using_cache "u" [("u", JVal.str "V")] (fun _ => "W")
        (WebState.mk [("z", JVal.null)] [] [] 5)).2.2
      = WebState.mk [("z", JVal.null)] [] [] 5 ∧
    (make_url_request_using_cache "u" [] (fun _ => "W")
        (WebState.mk [] [] [] 5)).2.2.saves = 6 := by
  constructor
  · exact (C10_save_only_on_miss "u" [("u", JVal.str "V")] (fun _ => "W")
      (WebState.mk [("z", JVal.null)] [] [] 5)).1 (JVal.str "V") rfl
  · have h := ((C10_save_only_on_miss "u" [] (fun _ => "W")
      (WebState.mk [] [] [] 5)).2 rfl).1
    simpa using h

end Proj2
